import Mathlib

/-!
Shallow embedding of `doUpdate` from `main.go` of
`ryanschneider/remove-instance-protection`.

The model starts at the point where the ASG snapshot and the launch
template's latest version have been fetched (main.go line 126 onward):
the remote describe calls before that point are plumbing outside the
decision logic.  Remote mutating calls (`SetInstanceProtection`,
`DeregisterTargets`) and the read (`DescribeTargetHealth`) are modelled
through an environment of oracles, and the run produces a trace of
events recording every remote interaction together with the dry-run
advisories that stand in for them.
-/

namespace RIP

/-- An instance's launch-template reference: `instance.LaunchTemplate`
with both `LaunchTemplateName` and `Version` present.  The version is
kept as the raw string, exactly as AWS returns it. -/
structure LTRef where
  name : String
  version : String
  deriving Repr, DecidableEq

/-- One member instance of the ASG snapshot.  `lt = none` models
`instance.LaunchTemplate == nil || instance.LaunchTemplate.Version == nil`. -/
structure Inst where
  id : String
  lt : Option LTRef
  protectedFromScaleIn : Bool
  deriving Repr, DecidableEq

/-- The per-instance classification outcome. -/
inductive Classification where
  | Latest
  | TemplateMismatch
  | OutdatedVersion
  deriving Repr, DecidableEq

/-- `strconv.ParseInt(s, 10, 64)`: an optional leading sign, then one or
more ASCII digits, with the value required to fit in a signed 64-bit
integer.  Underscores and whitespace are rejected in base 10. -/
def parseInt64 (s : String) : Option Int :=
  match s.toList with
  | [] => none
  | c :: rest =>
    let digits := if c = '-' ∨ c = '+' then rest else c :: rest
    let neg := c = '-'
    if digits.isEmpty then none
    else if digits.all Char.isDigit then
      let n : Nat := digits.foldl (fun acc d => acc * 10 + (d.toNat - 48)) 0
      let v : Int := if neg then -(n : Int) else (n : Int)
      if -(2 ^ 63) ≤ v ∧ v ≤ 2 ^ 63 - 1 then some v else none
    else none

/-- The version comparator: the per-instance classification logic of the
loop body in `doUpdate` (main.go lines 132-167).  Note the order: a
missing template/version errors first; a template-name mismatch is
classified before the version string is ever parsed (the `continue` in
the mismatch branch skips `strconv.ParseInt`). -/
def classifyInst (ltName : String) (latestVersion : Int) (inst : Inst) :
    Except String Classification :=
  match inst.lt with
  | none => Except.error ("missing Launch Template version for instance id " ++ inst.id)
  | some ref =>
    if ref.name ≠ ltName then Except.ok Classification.TemplateMismatch
    else
      match parseInt64 ref.version with
      | none => Except.error "invalid instance Launch Template Version"
      | some v =>
        if v ≠ latestVersion then Except.ok Classification.OutdatedVersion
        else Except.ok Classification.Latest

/-- The four accumulator lists of the classification loop, using the
variable names of `doUpdate`:
`instanceIdsToRemove` is the spec's `toUnprotect` bucket (stale and
protected), `latestInstances` is `latestIds`, `oldInstances` is
`staleUnprotected` (stale and already unprotected), and
`invalidInstances` records `OutdatedVersion` ids for optional reporting. -/
structure Buckets where
  instanceIdsToRemove : List String
  latestInstances : List String
  invalidInstances : List String
  oldInstances : List String
  deriving Repr, DecidableEq

/-- The instance classifier: the loop of main.go lines 131-168, with
each bucket in instance order.  A `TemplateMismatch` instance joins
`instanceIdsToRemove` or `oldInstances` by protection state but is never
added to `invalidInstances`; an `OutdatedVersion` instance joins
`invalidInstances` and additionally one of the two buckets; the first
classification error aborts the whole pass. -/
def classify (ltName : String) (latestVersion : Int) : List Inst → Except String Buckets
  | [] => Except.ok ⟨[], [], [], []⟩
  | inst :: rest =>
    match classifyInst ltName latestVersion inst with
    | Except.error e => Except.error e
    | Except.ok c =>
      match classify ltName latestVersion rest with
      | Except.error e => Except.error e
      | Except.ok b =>
        match c with
        | Classification.Latest =>
          Except.ok { b with latestInstances := inst.id :: b.latestInstances }
        | Classification.TemplateMismatch =>
          if inst.protectedFromScaleIn then
            Except.ok { b with instanceIdsToRemove := inst.id :: b.instanceIdsToRemove }
          else
            Except.ok { b with oldInstances := inst.id :: b.oldInstances }
        | Classification.OutdatedVersion =>
          if inst.protectedFromScaleIn then
            Except.ok { b with invalidInstances := inst.id :: b.invalidInstances,
                               instanceIdsToRemove := inst.id :: b.instanceIdsToRemove }
          else
            Except.ok { b with invalidInstances := inst.id :: b.invalidInstances,
                               oldInstances := inst.id :: b.oldInstances }

/-- Fuel-indexed worker for `chunks50`; the fuel (the list length at the
start) strictly dominates the remaining length, so the out-of-fuel case
is unreachable. -/
def chunksGo : Nat → List String → List (List String)
  | _, [] => []
  | 0, _ :: _ => []
  | fuel + 1, a :: l => ((a :: l).take 50) :: chunksGo fuel ((a :: l).drop 50)

/-- `gopart.Partition(len(l), 50)` together with the slice
`l[partition.Low:partition.High]`: the contiguous chunks of at most 50
elements, in order. -/
def chunks50 (l : List String) : List (List String) :=
  chunksGo l.length l

/-- The target-matching double loop of main.go lines 198-205: for each
registered target in the health description, one copy is appended for
every member of `oldInstances` it equals. -/
def matchedTargets (healthy old : List String) : List String :=
  healthy.flatMap (fun h => (old.filter (fun o => h = o)).map (fun _ => h))

/-- A remote interaction, or the dry-run advisory standing in for one.
`healthLookup` is the read `DescribeTargetHealth`; `deregCall` and
`protectCall` are the two mutating calls with their payloads;
`dryDereg` and `dryProtect` are the corresponding `[DRYRUN]` advisories
(one per matched target, resp. one per partition chunk). -/
inductive Event where
  | healthLookup (tg : String)
  | deregCall (tg : String) (targets : List String)
  | protectCall (payload : List String)
  | dryDereg (tg : String) (target : String)
  | dryProtect (chunk : List String)
  deriving Repr, DecidableEq

/-- `true` exactly on the mutating remote calls. -/
def Event.isMutating : Event → Bool
  | Event.deregCall _ _ => true
  | Event.protectCall _ => true
  | _ => false

/-- `true` on events of the protection-removal phase (live calls and
their dry-run advisories). -/
def Event.isProtectPhase : Event → Bool
  | Event.protectCall _ => true
  | Event.dryProtect _ => true
  | _ => false

/-- `true` on the live protection-removal call events only. -/
def Event.isProtectCall : Event → Bool
  | Event.protectCall _ => true
  | _ => false

/-- The chunk of a dry-run protection advisory, when the event is one. -/
def Event.dryChunk : Event → Option (List String)
  | Event.dryProtect c => some c
  | _ => none

/-- The remote world: per-target-group health lookups (which may fail),
and the success of each `DeregisterTargets` call (by target group) and
each `SetInstanceProtection` call (by call index). -/
structure Env where
  health : String → Except Unit (List String)
  deregOk : String → Bool
  protectOk : Nat → Bool

/-- The target-group loop of main.go lines 191-215.  Each group gets one
health lookup; a lookup failure aborts the run.  Dry-run emits one
advisory per matched target; live issues one deregistration call per
group (payload: the matched targets, possibly empty), and a call failure
aborts the run before any further group is processed. -/
def deregLoop (env : Env) (old : List String) (dryRun : Bool) :
    List String → List Event × Option String
  | [] => ([], none)
  | tg :: rest =>
    match env.health tg with
    | Except.error _ => ([Event.healthLookup tg], some ("could not get target group instances for " ++ tg))
    | Except.ok healthy =>
      let targets := matchedTargets healthy old
      if dryRun then
        let (evs, err) := deregLoop env old dryRun rest
        (Event.healthLookup tg :: (targets.map (Event.dryDereg tg) ++ evs), err)
      else if env.deregOk tg then
        let (evs, err) := deregLoop env old dryRun rest
        (Event.healthLookup tg :: Event.deregCall tg targets :: evs, err)
      else
        ([Event.healthLookup tg, Event.deregCall tg targets],
         some ("could not deregister targets from " ++ tg))

/-- The partition loop of main.go lines 238-261.  `full` is the whole
`instanceIdsToRemove` list: the live `SetInstanceProtection` request is
built from `instanceIdsToRemove`, not from the chunk slice, so every
call carries the full list (the chunk only drives the loop and the
per-instance logging).  Dry-run emits one advisory per chunk and never
calls; a live call failure aborts the loop immediately. -/
def protectLoop (env : Env) (full : List String) (dryRun : Bool) :
    Nat → List (List String) → List Event × Option String
  | _, [] => ([], none)
  | k, chunk :: rest =>
    if dryRun then
      let (evs, err) := protectLoop env full dryRun (k + 1) rest
      (Event.dryProtect chunk :: evs, err)
    else if env.protectOk k then
      let (evs, err) := protectLoop env full dryRun (k + 1) rest
      (Event.protectCall full :: evs, err)
    else ([Event.protectCall full], some "set instance protection failed")

/-- The flag options consumed by `doUpdate` (those that affect its
behavior; `printLatest`/`printInvalid` only drive stdout reporting and
alter no decision or call). -/
structure Opts where
  dryRun : Bool
  force : Bool
  deregister : Bool
  printLatest : Bool
  printInvalid : Bool
  deriving Repr, DecidableEq

/-- The input available when the decision logic starts: the ASG's
launch-template name, its latest version number, the instance snapshot
list, and the ASG's target-group references in order. -/
structure Input where
  ltName : String
  latestVersion : Int
  instances : List Inst
  targetGroups : List String

/-- What a run produces: the event trace, the final result, and the
classification buckets and partition chunks it computed on the way
(`buckets` is the classification outcome; `chunks` is the chunk
structure of the partition loop, `[]` when that loop is never reached). -/
structure RunOut where
  trace : List Event
  result : Except String Unit
  buckets : Except String Buckets
  chunks : List (List String)
  deriving Repr

/-- `doUpdate` from main.go line 126 to the end: classify, then (when
enabled and both `latestInstances` and `oldInstances` are non-empty) the
target-group deregistration loop, then the no-op check, the
blocked-without-force check, and finally the protection-removal
partition loop. -/
def run (inp : Input) (opts : Opts) (env : Env) : RunOut :=
  match classify inp.ltName inp.latestVersion inp.instances with
  | Except.error e => ⟨[], Except.error e, Except.error e, []⟩
  | Except.ok b =>
    let (devs, derr) :=
      if opts.deregister && !b.latestInstances.isEmpty && !b.oldInstances.isEmpty then
        deregLoop env b.oldInstances opts.dryRun inp.targetGroups
      else ([], none)
    match derr with
    | some e => ⟨devs, Except.error e, Except.ok b, []⟩
    | none =>
      if b.instanceIdsToRemove.isEmpty then ⟨devs, Except.ok (), Except.ok b, []⟩
      else if b.latestInstances.isEmpty && !opts.force then ⟨devs, Except.ok (), Except.ok b, []⟩
      else
        let cs := chunks50 b.instanceIdsToRemove
        let (pevs, perr) := protectLoop env b.instanceIdsToRemove opts.dryRun 0 cs
        match perr with
        | some e => ⟨devs ++ pevs, Except.error e, Except.ok b, cs⟩
        | none => ⟨devs ++ pevs, Except.ok (), Except.ok b, cs⟩

/-! ### Concrete fixtures used by the witness theorems -/

/-- Latest-version protected instance of the spec's example scenarios. -/
def wA : Inst := ⟨"A", some ⟨"web-lt", "5"⟩, true⟩

/-- Outdated protected instance. -/
def wB : Inst := ⟨"B", some ⟨"web-lt", "4"⟩, true⟩

/-- Outdated unprotected instance. -/
def wC : Inst := ⟨"C", some ⟨"web-lt", "4"⟩, false⟩

/-- A fully healthy remote world: every health lookup returns targets
"B" and "C", and every mutating call succeeds. -/
def wEnvOk : Env := ⟨fun _ => Except.ok ["B", "C"], fun _ => true, fun _ => true⟩

/-- A remote world in which every protection-removal call fails. -/
def wEnvPFail : Env := ⟨fun _ => Except.ok ["B", "C"], fun _ => true, fun _ => false⟩

/-- The 51 instance ids of the batching scenario. -/
def ids51 : List String := (List.range 51).map (fun k => String.append "i" (toString k))

/-- 51 outdated protected instances. -/
def insts51 : List Inst :=
  (List.range 51).map (fun k => ⟨String.append "i" (toString k), some ⟨"web-lt", "4"⟩, true⟩)

/-- The batching scenario input: one latest instance plus 51 outdated
protected ones, no target groups. -/
def inp51 : Input := ⟨"web-lt", 5, wA :: insts51, []⟩

/-- The same options with the dry-run flag replaced: used to compare a
dry-run against the live run on the same input. -/
def Opts.withDry (o : Opts) (d : Bool) : Opts :=
  ⟨d, o.force, o.deregister, o.printLatest, o.printInvalid⟩

/-! ### Helper lemmas about the classifier -/

/-- Each classified instance contributes its id to exactly one of the
three buckets `latestInstances`, `instanceIdsToRemove`, `oldInstances`:
their concatenation is a permutation of the input's id list. -/
theorem classify_perm (ltName : String) (lv : Int) (l : List Inst) :
    ∀ b : Buckets, classify ltName lv l = Except.ok b →
      List.Perm (b.latestInstances ++ b.instanceIdsToRemove ++ b.oldInstances)
        (l.map (fun i => i.id)) := by
  induction l with
  | nil =>
    intro b h
    simp only [classify] at h
    injection h with h'
    subst h'
    simp
  | cons inst rest ih =>
    intro b h
    simp only [classify] at h
    cases hc : classifyInst ltName lv inst <;> rw [hc] at h
    case error e => exact absurd h (by simp)
    case ok c =>
      cases hr : classify ltName lv rest <;> rw [hr] at h
      case error e => exact absurd h (by simp)
      case ok b' =>
        have hperm := ih b' hr
        cases c with
        | Latest =>
          injection h with h'
          subst h'
          exact hperm.cons inst.id
        | TemplateMismatch =>
          by_cases hp : inst.protectedFromScaleIn <;>
            simp only [hp, if_true, if_false] at h <;> injection h with h' <;> subst h'
          · exact ((List.perm_middle).append_right _).trans (hperm.cons inst.id)
          · exact (List.perm_middle).trans (hperm.cons inst.id)
        | OutdatedVersion =>
          by_cases hp : inst.protectedFromScaleIn <;>
            simp only [hp, if_true, if_false] at h <;> injection h with h' <;> subst h'
          · exact ((List.perm_middle).append_right _).trans (hperm.cons inst.id)
          · exact (List.perm_middle).trans (hperm.cons inst.id)

/-- C2: whenever the classifier accepts an instance list (and the
snapshot's instance ids are distinct, as in a real ASG), the buckets
`latestInstances`, `instanceIdsToRemove` (toUnprotect) and
`oldInstances` (staleUnprotected) are pairwise disjoint and their union
is exactly the full instance-id set of the snapshot. -/
theorem classify_buckets_partition (ltName : String) (lv : Int) (l : List Inst) (b : Buckets)
    (hok : classify ltName lv l = Except.ok b)
    (hnd : (l.map (fun i => i.id)).Nodup) :
    ((∀ x ∈ b.latestInstances, x ∉ b.instanceIdsToRemove) ∧
     (∀ x ∈ b.latestInstances, x ∉ b.oldInstances) ∧
     (∀ x ∈ b.instanceIdsToRemove, x ∉ b.oldInstances)) ∧
    (∀ x, x ∈ l.map (fun i => i.id) ↔
      (x ∈ b.latestInstances ∨ x ∈ b.instanceIdsToRemove ∨ x ∈ b.oldInstances)) := by
  have hperm := classify_perm ltName lv l b hok
  have hnd2 : (b.latestInstances ++ b.instanceIdsToRemove ++ b.oldInstances).Nodup :=
    hperm.nodup_iff.mpr hnd
  rw [List.nodup_append, List.nodup_append] at hnd2
  obtain ⟨⟨_, _, hLR⟩, _, hLRO⟩ := hnd2
  refine ⟨⟨?_, ?_, ?_⟩, ?_⟩
  · intro x hx
    exact hLR hx
  · intro x hx hxo
    exact hLRO (List.mem_append_left _ hx) hxo
  · intro x hx hxo
    exact hLRO (List.mem_append_right _ hx) hxo
  · intro x
    rw [← hperm.mem_iff]
    simp [List.mem_append, or_assoc]

/-- C2 witness at the spec's example scenario 1 plus a stale-unprotected
mismatch instance. -/
theorem classify_buckets_partition_witness :
    ((∀ x ∈ (["A", "C"] : List String), x ∉ (["B"] : List String)) ∧
     (∀ x ∈ (["A", "C"] : List String), x ∉ (["D"] : List String)) ∧
     (∀ x ∈ (["B"] : List String), x ∉ (["D"] : List String))) ∧
    (∀ x, x ∈ ([⟨"A", some ⟨"web-lt", "5"⟩, true⟩, ⟨"B", some ⟨"web-lt", "4"⟩, true⟩,
        ⟨"C", some ⟨"web-lt", "5"⟩, false⟩, ⟨"D", some ⟨"other-lt", "9"⟩, false⟩] :
          List Inst).map (fun i => i.id) ↔
      (x ∈ (["A", "C"] : List String) ∨ x ∈ (["B"] : List String) ∨
       x ∈ (["D"] : List String))) := by
  have h := classify_buckets_partition "web-lt" 5
    [⟨"A", some ⟨"web-lt", "5"⟩, true⟩, ⟨"B", some ⟨"web-lt", "4"⟩, true⟩,
     ⟨"C", some ⟨"web-lt", "5"⟩, false⟩, ⟨"D", some ⟨"other-lt", "9"⟩, false⟩]
    ⟨["B"], ["A", "C"], ["B"], ["D"]⟩ rfl (by decide)
  exact h

/-! ### The comparator's error condition (claim C4) -/

/-- C4 counterexample: the claim's "fails iff the version field is not a
parseable non-negative integer" is false on both sides.  Instance "D"
carries a template name different from the ASG's with the unparseable
version "x", yet classification succeeds (`TemplateMismatch`): the
mismatch branch returns before the version string is ever parsed.  And
instance "E" has the negative version "-1", which `strconv.ParseInt`
accepts, so classification succeeds (`OutdatedVersion`) instead of
failing. -/
theorem classifyInst_error_iff_cex :
    parseInt64 "x" = none ∧
    classifyInst "web-lt" 5 ⟨"D", some ⟨"other-lt", "x"⟩, false⟩ =
      Except.ok Classification.TemplateMismatch ∧
    parseInt64 "-1" = some (-1) ∧
    classifyInst "web-lt" 5 ⟨"E", some ⟨"web-lt", "-1"⟩, true⟩ =
      Except.ok Classification.OutdatedVersion :=
  ⟨rfl, rfl, by decide, rfl⟩

/-- C4 (amended): classification fails iff the instance's
launch-template reference (template or version field) is absent, or the
reference's template name equals the ASG's active template name and its
version field is not a parseable signed 64-bit integer; otherwise it
succeeds with one of Latest, TemplateMismatch, OutdatedVersion. -/
theorem classifyInst_error_iff (ltName : String) (lv : Int) (inst : Inst) :
    ((∃ e, classifyInst ltName lv inst = Except.error e) ↔
      (inst.lt = none ∨
       ∃ ref, inst.lt = some ref ∧ ref.name = ltName ∧ parseInt64 ref.version = none)) ∧
    (∀ c, classifyInst ltName lv inst = Except.ok c →
      (c = Classification.Latest ∨ c = Classification.TemplateMismatch ∨
       c = Classification.OutdatedVersion)) := by
  constructor
  · cases hlt : inst.lt with
    | none => simp [classifyInst, hlt]
    | some ref =>
      simp only [classifyInst, hlt]
      by_cases hn : ref.name = ltName
      · simp only [hn, ne_eq, not_true_eq_false, if_false]
        cases hp : parseInt64 ref.version with
        | none => simp [hn, hp]
        | some v =>
          by_cases hv : v = lv <;> simp [hv, hn, hp]
      · simp [hn]
  · intro c _
    cases c with
    | Latest => exact Or.inl rfl
    | TemplateMismatch => exact Or.inr (Or.inl rfl)
    | OutdatedVersion => exact Or.inr (Or.inr rfl)

/-- C4 witness: the amended iff applied to an instance with a missing
template reference, where classification indeed fails. -/
theorem classifyInst_error_iff_witness :
    (∃ e, classifyInst "web-lt" 5 ⟨"F", none, true⟩ = Except.error e) ∧
    (((⟨"F", none, true⟩ : Inst).lt = none) ∨
     ∃ ref, (⟨"F", none, true⟩ : Inst).lt = some ref ∧ ref.name = "web-lt" ∧
       parseInt64 ref.version = none) :=
  ⟨(classifyInst_error_iff "web-lt" 5 ⟨"F", none, true⟩).1.mpr (Or.inl rfl),
   Or.inl rfl⟩

/-! ### Step equations for the two executor loops -/

/-- One step of the deregistration loop when the health lookup fails. -/
theorem deregLoop_cons_err (env : Env) (old : List String) (dryRun : Bool)
    (tg : String) (rest : List String) (u : Unit)
    (hh : env.health tg = Except.error u) :
    deregLoop env old dryRun (tg :: rest) =
      ([Event.healthLookup tg], some ("could not get target group instances for " ++ tg)) := by
  simp [deregLoop, hh]

/-- One step of the deregistration loop in dry-run mode. -/
theorem deregLoop_cons_dry (env : Env) (old : List String)
    (tg : String) (rest : List String) (healthy : List String)
    (hh : env.health tg = Except.ok healthy) :
    deregLoop env old true (tg :: rest) =
      (Event.healthLookup tg ::
        ((matchedTargets healthy old).map (Event.dryDereg tg) ++ (deregLoop env old true rest).1),
       (deregLoop env old true rest).2) := by
  simp [deregLoop, hh]

/-- One step of the live deregistration loop when the call succeeds. -/
theorem deregLoop_cons_live_ok (env : Env) (old : List String)
    (tg : String) (rest : List String) (healthy : List String)
    (hh : env.health tg = Except.ok healthy) (hk : env.deregOk tg = true) :
    deregLoop env old false (tg :: rest) =
      (Event.healthLookup tg :: Event.deregCall tg (matchedTargets healthy old) ::
        (deregLoop env old false rest).1,
       (deregLoop env old false rest).2) := by
  simp [deregLoop, hh, hk]

/-- One step of the live deregistration loop when the call fails. -/
theorem deregLoop_cons_live_fail (env : Env) (old : List String)
    (tg : String) (rest : List String) (healthy : List String)
    (hh : env.health tg = Except.ok healthy) (hk : env.deregOk tg = false) :
    deregLoop env old false (tg :: rest) =
      ([Event.healthLookup tg, Event.deregCall tg (matchedTargets healthy old)],
       some ("could not deregister targets from " ++ tg)) := by
  simp [deregLoop, hh, hk]

/-- One step of the protection loop in dry-run mode. -/
theorem protectLoop_cons_dry (env : Env) (full : List String) (k : Nat)
    (chunk : List String) (rest : List (List String)) :
    protectLoop env full true k (chunk :: rest) =
      (Event.dryProtect chunk :: (protectLoop env full true (k + 1) rest).1,
       (protectLoop env full true (k + 1) rest).2) := by
  simp [protectLoop]

/-- One step of the live protection loop when the call succeeds. -/
theorem protectLoop_cons_live_ok (env : Env) (full : List String) (k : Nat)
    (chunk : List String) (rest : List (List String)) (hp : env.protectOk k = true) :
    protectLoop env full false k (chunk :: rest) =
      (Event.protectCall full :: (protectLoop env full false (k + 1) rest).1,
       (protectLoop env full false (k + 1) rest).2) := by
  simp [protectLoop, hp]

/-- One step of the live protection loop when the call fails. -/
theorem protectLoop_cons_live_fail (env : Env) (full : List String) (k : Nat)
    (chunk : List String) (rest : List (List String)) (hp : env.protectOk k = false) :
    protectLoop env full false k (chunk :: rest) =
      ([Event.protectCall full], some "set instance protection failed") := by
  simp [protectLoop, hp]

/-! ### Helper lemmas about the two executor loops -/

/-- A target appears in the matched list exactly when it is currently
registered and a member of `oldInstances`. -/
theorem matchedTargets_mem (healthy old : List String) (t : String) :
    t ∈ matchedTargets healthy old ↔ (t ∈ healthy ∧ t ∈ old) := by
  simp only [matchedTargets, List.mem_flatMap, List.mem_map, List.mem_filter,
    decide_eq_true_eq]
  constructor
  · rintro ⟨a, hh, x, ⟨hx, rfl⟩, rfl⟩
    exact ⟨hh, hx⟩
  · rintro ⟨hh, ho⟩
    exact ⟨t, hh, t, ⟨ho, rfl⟩, rfl⟩

/-- Every event emitted by the deregistration loop belongs to the
deregistration phase. -/
theorem deregLoop_events_phase (env : Env) (old : List String) (dryRun : Bool) :
    ∀ (tgs : List String), ∀ e ∈ (deregLoop env old dryRun tgs).1,
      Event.isProtectPhase e = false ∧ Event.isProtectCall e = false ∧
      Event.dryChunk e = none := by
  intro tgs
  induction tgs with
  | nil => intro e he; simp [deregLoop] at he
  | cons tg rest ih =>
    intro e he
    cases hh : env.health tg
    case error u =>
      rw [deregLoop_cons_err env old dryRun tg rest u hh] at he
      rcases List.mem_cons.mp he with rfl | he
      · exact ⟨rfl, rfl, rfl⟩
      · exact absurd he (List.not_mem_nil _)
    case ok healthy =>
      rcases Bool.eq_false_or_eq_true dryRun with hdr | hdr <;> subst hdr
      · rw [deregLoop_cons_dry env old tg rest healthy hh] at he
        rcases List.mem_cons.mp he with rfl | he
        · exact ⟨rfl, rfl, rfl⟩
        rcases List.mem_append.mp he with he | he
        · obtain ⟨t, _, rfl⟩ := List.mem_map.mp he
          exact ⟨rfl, rfl, rfl⟩
        · exact ih e he
      · by_cases hk : env.deregOk tg
        · rw [deregLoop_cons_live_ok env old tg rest healthy hh hk] at he
          rcases List.mem_cons.mp he with rfl | he
          · exact ⟨rfl, rfl, rfl⟩
          rcases List.mem_cons.mp he with rfl | he
          · exact ⟨rfl, rfl, rfl⟩
          · exact ih e he
        · rw [deregLoop_cons_live_fail env old tg rest healthy hh
            (Bool.not_eq_true _ ▸ hk)] at he
          rcases List.mem_cons.mp he with rfl | he
          · exact ⟨rfl, rfl, rfl⟩
          rcases List.mem_cons.mp he with rfl | he
          · exact ⟨rfl, rfl, rfl⟩
          · exact absurd he (List.not_mem_nil _)

/-- With every health lookup succeeding and every deregistration call
succeeding, the deregistration loop completes without error. -/
theorem deregLoop_err_none (env : Env) (old : List String) (dryRun : Bool)
    (hh : ∀ tg, ∃ v, env.health tg = Except.ok v)
    (hd : ∀ tg, env.deregOk tg = true) :
    ∀ tgs : List String, (deregLoop env old dryRun tgs).2 = none := by
  intro tgs
  induction tgs with
  | nil => rfl
  | cons tg rest ih =>
    obtain ⟨v, hv⟩ := hh tg
    rcases Bool.eq_false_or_eq_true dryRun with hdr | hdr <;> subst hdr
    · rw [deregLoop_cons_dry env old tg rest v hv]
      exact ih
    · rw [deregLoop_cons_live_ok env old tg rest v hv (hd tg)]
      exact ih

/-- With every health lookup and deregistration call succeeding, the
loop performs a health lookup for every target group on the ASG. -/
theorem deregLoop_health_of_mem (env : Env) (old : List String) (dryRun : Bool)
    (hh : ∀ tg, ∃ v, env.health tg = Except.ok v)
    (hd : ∀ tg, env.deregOk tg = true) :
    ∀ tgs : List String, ∀ tg ∈ tgs,
      Event.healthLookup tg ∈ (deregLoop env old dryRun tgs).1 := by
  intro tgs
  induction tgs with
  | nil => intro tg h; simp at h
  | cons tg0 rest ih =>
    intro tg hmem
    obtain ⟨v, hv⟩ := hh tg0
    rcases List.mem_cons.mp hmem with rfl | hmem
    · rcases Bool.eq_false_or_eq_true dryRun with hdr | hdr <;> subst hdr
      · rw [deregLoop_cons_dry env old tg rest v hv]
        exact List.mem_cons_self _ _
      · rw [deregLoop_cons_live_ok env old tg rest v hv (hd tg)]
        exact List.mem_cons_self _ _
    · rcases Bool.eq_false_or_eq_true dryRun with hdr | hdr <;> subst hdr
      · rw [deregLoop_cons_dry env old tg0 rest v hv]
        exact List.mem_cons_of_mem _ (List.mem_append_right _ (ih tg hmem))
      · rw [deregLoop_cons_live_ok env old tg0 rest v hv (hd tg0)]
        exact List.mem_cons_of_mem _ (List.mem_cons_of_mem _ (ih tg hmem))

/-- A health lookup in the trace can only come from a target group on
the ASG. -/
theorem deregLoop_health_mem (env : Env) (old : List String) (dryRun : Bool) :
    ∀ (tgs : List String) (tg : String),
      Event.healthLookup tg ∈ (deregLoop env old dryRun tgs).1 → tg ∈ tgs := by
  intro tgs
  induction tgs with
  | nil => intro tg h; simp [deregLoop] at h
  | cons tg0 rest ih =>
    intro tg h
    cases hh : env.health tg0
    case error u =>
      rw [deregLoop_cons_err env old dryRun tg0 rest u hh] at h
      rcases List.mem_cons.mp h with h | h
      · injection h with h'; subst h'; exact List.mem_cons_self _ _
      · exact absurd h (List.not_mem_nil _)
    case ok healthy =>
      rcases Bool.eq_false_or_eq_true dryRun with hdr | hdr <;> subst hdr
      · rw [deregLoop_cons_dry env old tg0 rest healthy hh] at h
        rcases List.mem_cons.mp h with h | h
        · injection h with h'; subst h'; exact List.mem_cons_self _ _
        rcases List.mem_append.mp h with h | h
        · obtain ⟨t, _, ht⟩ := List.mem_map.mp h
          cases ht
        · exact List.mem_cons_of_mem _ (ih tg h)
      · by_cases hk : env.deregOk tg0
        · rw [deregLoop_cons_live_ok env old tg0 rest healthy hh hk] at h
          rcases List.mem_cons.mp h with h | h
          · injection h with h'; subst h'; exact List.mem_cons_self _ _
          rcases List.mem_cons.mp h with h | h
          · cases h
          · exact List.mem_cons_of_mem _ (ih tg h)
        · rw [deregLoop_cons_live_fail env old tg0 rest healthy hh
            (Bool.not_eq_true _ ▸ hk)] at h
          rcases List.mem_cons.mp h with h | h
          · injection h with h'; subst h'; exact List.mem_cons_self _ _
          rcases List.mem_cons.mp h with h | h
          · cases h
          · exact absurd h (List.not_mem_nil _)

/-- Every deregistration call event carries exactly the matched targets
for its group: the registered targets of that group's (successful)
health lookup intersected with `oldInstances`. -/
theorem deregLoop_deregCall_spec (env : Env) (old : List String) (dryRun : Bool) :
    ∀ (tgs : List String) (tg : String) (ts : List String),
      Event.deregCall tg ts ∈ (deregLoop env old dryRun tgs).1 →
        ∃ healthy, env.health tg = Except.ok healthy ∧ ts = matchedTargets healthy old := by
  intro tgs
  induction tgs with
  | nil => intro tg ts h; simp [deregLoop] at h
  | cons tg0 rest ih =>
    intro tg ts h
    cases hh : env.health tg0
    case error u =>
      rw [deregLoop_cons_err env old dryRun tg0 rest u hh] at h
      rcases List.mem_cons.mp h with h | h
      · cases h
      · exact absurd h (List.not_mem_nil _)
    case ok healthy =>
      rcases Bool.eq_false_or_eq_true dryRun with hdr | hdr <;> subst hdr
      · rw [deregLoop_cons_dry env old tg0 rest healthy hh] at h
        rcases List.mem_cons.mp h with h | h
        · cases h
        rcases List.mem_append.mp h with h | h
        · obtain ⟨t, _, ht⟩ := List.mem_map.mp h
          cases ht
        · exact ih tg ts h
      · by_cases hk : env.deregOk tg0
        · rw [deregLoop_cons_live_ok env old tg0 rest healthy hh hk] at h
          rcases List.mem_cons.mp h with h | h
          · cases h
          rcases List.mem_cons.mp h with h | h
          · injection h with h1 h2; subst h1; subst h2; exact ⟨healthy, hh, rfl⟩
          · exact ih tg ts h
        · rw [deregLoop_cons_live_fail env old tg0 rest healthy hh
            (Bool.not_eq_true _ ▸ hk)] at h
          rcases List.mem_cons.mp h with h | h
          · cases h
          rcases List.mem_cons.mp h with h | h
          · injection h with h1 h2; subst h1; subst h2; exact ⟨healthy, hh, rfl⟩
          · exact absurd h (List.not_mem_nil _)

/-- In dry-run mode the deregistration loop emits no mutating event. -/
theorem deregLoop_dry_not_mutating (env : Env) (old : List String) :
    ∀ tgs : List String, ∀ e ∈ (deregLoop env old true tgs).1, Event.isMutating e = false := by
  intro tgs
  induction tgs with
  | nil => intro e he; simp [deregLoop] at he
  | cons tg rest ih =>
    intro e he
    cases hh : env.health tg
    case error u =>
      rw [deregLoop_cons_err env old true tg rest u hh] at he
      rcases List.mem_cons.mp he with rfl | he
      · rfl
      · exact absurd he (List.not_mem_nil _)
    case ok healthy =>
      rw [deregLoop_cons_dry env old tg rest healthy hh] at he
      rcases List.mem_cons.mp he with rfl | he
      · rfl
      rcases List.mem_append.mp he with he | he
      · obtain ⟨t, _, rfl⟩ := List.mem_map.mp he
        rfl
      · exact ih e he

/-- Dry-run protection loop: one advisory per chunk, no error, no call. -/
theorem protectLoop_dry (env : Env) (full : List String) :
    ∀ (cs : List (List String)) (k : Nat),
      protectLoop env full true k cs = (cs.map Event.dryProtect, none) := by
  intro cs
  induction cs with
  | nil => intro k; rfl
  | cons c rest ih =>
    intro k
    rw [protectLoop_cons_dry, ih (k + 1)]
    rfl

/-- Live protection loop with every call succeeding: one call per chunk
(each carrying the full list), no error. -/
theorem protectLoop_all_ok (env : Env) (full : List String)
    (hp : ∀ j, env.protectOk j = true) :
    ∀ (cs : List (List String)) (k : Nat),
      protectLoop env full false k cs =
        (cs.map (fun _ => Event.protectCall full), none) := by
  intro cs
  induction cs with
  | nil => intro k; rfl
  | cons c rest ih =>
    intro k
    rw [protectLoop_cons_live_ok env full k c rest (hp k), ih (k + 1)]
    rfl

/-- Live protection loop when the call at offset `k` fails and all
earlier calls succeed: exactly `k + 1` calls are submitted (the `k`
committed ones plus the failing one) and the loop aborts with an error. -/
theorem protectLoop_fail (env : Env) (full : List String) :
    ∀ (cs : List (List String)) (s k : Nat), k < cs.length →
      (∀ j, j < k → env.protectOk (s + j) = true) →
      env.protectOk (s + k) = false →
      protectLoop env full false s cs =
        (List.replicate (k + 1) (Event.protectCall full),
         some "set instance protection failed") := by
  intro cs
  induction cs with
  | nil => intro s k hk; simp at hk
  | cons c rest ih =>
    intro s k hk hsucc hfail
    cases k with
    | zero =>
      have h0 : env.protectOk s = false := by simpa using hfail
      rw [protectLoop_cons_live_fail env full s c rest h0]
      rfl
    | succ k' =>
      have hs : env.protectOk s = true := by simpa using hsucc 0 (Nat.succ_pos _)
      have hsucc' : ∀ j, j < k' → env.protectOk (s + 1 + j) = true := by
        intro j hj
        have hx := hsucc (j + 1) (by omega)
        have harith : s + (j + 1) = s + 1 + j := by omega
        rwa [harith] at hx
      have hfail' : env.protectOk (s + 1 + k') = false := by
        have harith : s + (k' + 1) = s + 1 + k' := by omega
        rwa [harith] at hfail
      have hk' : k' < rest.length := by simpa using hk
      rw [protectLoop_cons_live_ok env full s c rest hs,
        ih (s + 1) k' hk' hsucc' hfail']
      simp [List.replicate_succ]

/-- Every event emitted by the protection loop belongs to the
protection phase. -/
theorem protectLoop_events_phase (env : Env) (full : List String) (dryRun : Bool) :
    ∀ (cs : List (List String)) (k : Nat), ∀ e ∈ (protectLoop env full dryRun k cs).1,
      Event.isProtectPhase e = true := by
  intro cs
  induction cs with
  | nil => intro k e he; simp [protectLoop] at he
  | cons c rest ih =>
    intro k e he
    rcases Bool.eq_false_or_eq_true dryRun with hdr | hdr <;> subst hdr
    · rw [protectLoop_cons_dry] at he
      rcases List.mem_cons.mp he with rfl | he
      · rfl
      · exact ih (k + 1) e he
    · by_cases hp : env.protectOk k
      · rw [protectLoop_cons_live_ok env full k c rest hp] at he
        rcases List.mem_cons.mp he with rfl | he
        · rfl
        · exact ih (k + 1) e he
      · rw [protectLoop_cons_live_fail env full k c rest (Bool.not_eq_true _ ▸ hp)] at he
        rcases List.mem_cons.mp he with rfl | he
        · rfl
        · exact absurd he (List.not_mem_nil _)

/-! ### Decomposition of a run's trace -/

/-- The boolean guard of the deregistration block, as a proposition. -/
theorem deregCond_iff (opts : Opts) (b : Buckets) :
    (opts.deregister && !b.latestInstances.isEmpty && !b.oldInstances.isEmpty) = true ↔
      (opts.deregister = true ∧ b.latestInstances ≠ [] ∧ b.oldInstances ≠ []) := by
  simp [Bool.and_eq_true, and_assoc]

/-- Any run whose classification succeeds has a trace of the form
"deregistration part followed by protection part": the deregistration
block's events (present exactly when its guard holds) followed by either
nothing or the protection loop's events. -/
theorem run_trace_parts (inp : Input) (opts : Opts) (env : Env) (b : Buckets)
    (hok : classify inp.ltName inp.latestVersion inp.instances = Except.ok b) :
    ∃ p, ((run inp opts env).trace =
        (if opts.deregister && !b.latestInstances.isEmpty && !b.oldInstances.isEmpty then
          (deregLoop env b.oldInstances opts.dryRun inp.targetGroups).1 else []) ++ p) ∧
      (p = [] ∨
        p = (protectLoop env b.instanceIdsToRemove opts.dryRun 0
          (chunks50 b.instanceIdsToRemove)).1) := by
  by_cases hcond : (opts.deregister && !b.latestInstances.isEmpty && !b.oldInstances.isEmpty) = true
  · rcases hdl : deregLoop env b.oldInstances opts.dryRun inp.targetGroups with ⟨devs, derr⟩
    cases derr with
    | some e =>
      refine ⟨[], ?_, Or.inl rfl⟩
      simp [run, hok, hcond, hdl]
    | none =>
      by_cases hrem : b.instanceIdsToRemove.isEmpty = true
      · refine ⟨[], ?_, Or.inl rfl⟩
        simp [run, hok, hcond, hdl, hrem]
      · by_cases hblock : (b.latestInstances.isEmpty && !opts.force) = true
        · refine ⟨[], ?_, Or.inl rfl⟩
          simp [run, hok, hcond, hdl, hrem, hblock]
        · rcases hpl : protectLoop env b.instanceIdsToRemove opts.dryRun 0
            (chunks50 b.instanceIdsToRemove) with ⟨pevs, perr⟩
          cases perr with
          | some e =>
            refine ⟨pevs, ?_, Or.inr (by simp [hpl])⟩
            simp [run, hok, hcond, hdl, hrem, hblock, hpl]
          | none =>
            refine ⟨pevs, ?_, Or.inr (by simp [hpl])⟩
            simp [run, hok, hcond, hdl, hrem, hblock, hpl]
  · by_cases hrem : b.instanceIdsToRemove.isEmpty = true
    · refine ⟨[], ?_, Or.inl rfl⟩
      simp [run, hok, hcond, hrem]
    · by_cases hblock : (b.latestInstances.isEmpty && !opts.force) = true
      · refine ⟨[], ?_, Or.inl rfl⟩
        simp [run, hok, hcond, hrem, hblock]
      · rcases hpl : protectLoop env b.instanceIdsToRemove opts.dryRun 0
          (chunks50 b.instanceIdsToRemove) with ⟨pevs, perr⟩
        cases perr with
        | some e =>
          refine ⟨pevs, ?_, Or.inr (by simp [hpl])⟩
          simp [run, hok, hcond, hrem, hblock, hpl]
        | none =>
          refine ⟨pevs, ?_, Or.inr (by simp [hpl])⟩
          simp [run, hok, hcond, hrem, hblock, hpl]

/-! ### The claims about whole runs -/

/-- C3: when `instanceIdsToRemove` (toUnprotect) is non-empty,
`latestInstances` is empty and `force` is not set, the run makes no
mutating remote call at all and terminates successfully. -/
theorem blocked_without_force (inp : Input) (opts : Opts) (env : Env) (b : Buckets)
    (hok : classify inp.ltName inp.latestVersion inp.instances = Except.ok b)
    (hrem : b.instanceIdsToRemove ≠ [])
    (hlatest : b.latestInstances = [])
    (hforce : opts.force = false) :
    (run inp opts env).trace.filter Event.isMutating = [] ∧
    (run inp opts env).result = Except.ok () := by
  have hrun : run inp opts env = ⟨[], Except.ok (), Except.ok b, []⟩ := by
    simp [run, hok, hlatest, hforce, hrem]
  rw [hrun]
  exact ⟨rfl, rfl⟩

/-- C3 witness: one outdated protected instance, none at the latest
version, no `--force`: the run is blocked yet succeeds with no calls. -/
theorem blocked_without_force_witness :
    (run ⟨"web-lt", 5, [wB], ["tg1"]⟩ ⟨false, false, true, false, false⟩
      wEnvOk).trace.filter Event.isMutating = [] ∧
    (run ⟨"web-lt", 5, [wB], ["tg1"]⟩ ⟨false, false, true, false, false⟩
      wEnvOk).result = Except.ok () :=
  blocked_without_force ⟨"web-lt", 5, [wB], ["tg1"]⟩ ⟨false, false, true, false, false⟩
    wEnvOk ⟨["B"], [], ["B"], []⟩ rfl (by decide) rfl rfl

/-- C6: a health lookup (the planner's first action for a group) occurs
for a target group iff deregistration is enabled and both
`latestInstances` and `oldInstances` are non-empty; when that condition
fails, no deregistration-phase event (lookup, call or advisory) occurs
for any target group. -/
theorem dereg_preconditions (inp : Input) (opts : Opts) (env : Env) (b : Buckets)
    (hok : classify inp.ltName inp.latestVersion inp.instances = Except.ok b)
    (hh : ∀ tg, ∃ v, env.health tg = Except.ok v)
    (hd : ∀ tg, env.deregOk tg = true) :
    (∀ tg ∈ inp.targetGroups,
      (Event.healthLookup tg ∈ (run inp opts env).trace ↔
        (opts.deregister = true ∧ b.latestInstances ≠ [] ∧ b.oldInstances ≠ []))) ∧
    (¬(opts.deregister = true ∧ b.latestInstances ≠ [] ∧ b.oldInstances ≠ []) →
      ∀ e ∈ (run inp opts env).trace, Event.isProtectPhase e = true) := by
  obtain ⟨p, htr, hp⟩ := run_trace_parts inp opts env b hok
  have hpp : ∀ e ∈ p, Event.isProtectPhase e = true := by
    rcases hp with rfl | rfl
    · intro e he; exact absurd he (List.not_mem_nil _)
    · exact protectLoop_events_phase env b.instanceIdsToRemove opts.dryRun _ 0
  by_cases hcond :
      (opts.deregister && !b.latestInstances.isEmpty && !b.oldInstances.isEmpty) = true
  · rw [if_pos hcond] at htr
    constructor
    · intro tg htg
      constructor
      · intro _; exact (deregCond_iff opts b).mp hcond
      · intro _
        rw [htr]
        exact List.mem_append_left _
          (deregLoop_health_of_mem env b.oldInstances opts.dryRun hh hd inp.targetGroups tg htg)
    · intro hnc
      exact absurd ((deregCond_iff opts b).mp hcond) hnc
  · rw [if_neg hcond, List.nil_append] at htr
    constructor
    · intro tg htg
      constructor
      · intro hmem
        rw [htr] at hmem
        have hph := hpp _ hmem
        simp [Event.isProtectPhase] at hph
      · intro hc
        exact absurd ((deregCond_iff opts b).mpr hc) hcond
    · intro _ e he
      rw [htr] at he
      exact hpp e he

/-- C6 witness: feature enabled, a latest instance and a
stale-unprotected instance present: the health lookup for "tg1" occurs. -/
theorem dereg_preconditions_witness :
    Event.healthLookup "tg1" ∈
      (run ⟨"web-lt", 5, [wA, wC], ["tg1"]⟩ ⟨false, false, true, false, false⟩ wEnvOk).trace :=
  ((dereg_preconditions ⟨"web-lt", 5, [wA, wC], ["tg1"]⟩ ⟨false, false, true, false, false⟩
      wEnvOk ⟨[], ["A"], ["C"], ["C"]⟩ rfl (fun _ => ⟨["B", "C"], rfl⟩)
      (fun _ => rfl)).1 "tg1" (by simp)).mpr ⟨rfl, by simp, by simp⟩

/-- Every dry-run deregistration advisory names a target that is
registered in its group and a member of `oldInstances`. -/
theorem deregLoop_dryDereg_spec (env : Env) (old : List String) (dryRun : Bool) :
    ∀ (tgs : List String) (tg t : String),
      Event.dryDereg tg t ∈ (deregLoop env old dryRun tgs).1 →
        ∃ healthy, env.health tg = Except.ok healthy ∧ t ∈ healthy ∧ t ∈ old := by
  intro tgs
  induction tgs with
  | nil => intro tg t h; simp [deregLoop] at h
  | cons tg0 rest ih =>
    intro tg t h
    cases hh : env.health tg0
    case error u =>
      rw [deregLoop_cons_err env old dryRun tg0 rest u hh] at h
      rcases List.mem_cons.mp h with h | h
      · cases h
      · exact absurd h (List.not_mem_nil _)
    case ok healthy =>
      rcases Bool.eq_false_or_eq_true dryRun with hdr | hdr <;> subst hdr
      · rw [deregLoop_cons_dry env old tg0 rest healthy hh] at h
        rcases List.mem_cons.mp h with h | h
        · cases h
        rcases List.mem_append.mp h with h | h
        · obtain ⟨t0, ht0, heq⟩ := List.mem_map.mp h
          injection heq with h1 h2
          subst h1
          subst h2
          exact ⟨healthy, hh, (matchedTargets_mem healthy old _).mp ht0⟩
        · exact ih tg t h
      · by_cases hk : env.deregOk tg0
        · rw [deregLoop_cons_live_ok env old tg0 rest healthy hh hk] at h
          rcases List.mem_cons.mp h with h | h
          · cases h
          rcases List.mem_cons.mp h with h | h
          · cases h
          · exact ih tg t h
        · rw [deregLoop_cons_live_fail env old tg0 rest healthy hh
            (Bool.not_eq_true _ ▸ hk)] at h
          rcases List.mem_cons.mp h with h | h
          · cases h
          rcases List.mem_cons.mp h with h | h
          · cases h
          · exact absurd h (List.not_mem_nil _)

/-- In dry-run mode with every health lookup succeeding, every member
of the registered-targets-intersect-`oldInstances` set of a processed
group is advised. -/
theorem deregLoop_dryDereg_of_mem (env : Env) (old : List String)
    (hh : ∀ tg, ∃ v, env.health tg = Except.ok v) :
    ∀ tgs : List String, ∀ tg ∈ tgs, ∀ healthy, env.health tg = Except.ok healthy →
      ∀ t, t ∈ matchedTargets healthy old →
        Event.dryDereg tg t ∈ (deregLoop env old true tgs).1 := by
  intro tgs
  induction tgs with
  | nil => intro tg h; simp at h
  | cons tg0 rest ih =>
    intro tg hmem healthy hhealthy t htm
    obtain ⟨v, hv⟩ := hh tg0
    rw [deregLoop_cons_dry env old tg0 rest v hv]
    rcases List.mem_cons.mp hmem with rfl | hmem
    · rw [hv] at hhealthy
      injection hhealthy with he
      subst he
      exact List.mem_cons_of_mem _ (List.mem_append_left _
        (List.mem_map.mpr ⟨t, htm, rfl⟩))
    · exact List.mem_cons_of_mem _ (List.mem_append_right _
        (ih tg hmem healthy hhealthy t htm))

/-- C5: every deregistration request's target set is exactly the set of
targets currently registered in that group that are members of
`oldInstances` (staleUnprotected); every dry-run deregistration
advisory names a target in that intersection, and (for each group the
dry-run planner processes, i.e. when its preconditions hold and no
health lookup fails) every member of the intersection is advised:
nothing outside the intersection ever appears and nothing inside it is
missed. -/
theorem dereg_targets_exact (inp : Input) (opts : Opts) (env : Env) (b : Buckets)
    (hok : classify inp.ltName inp.latestVersion inp.instances = Except.ok b) :
    (∀ tg ts, Event.deregCall tg ts ∈ (run inp opts env).trace →
      ∃ healthy, env.health tg = Except.ok healthy ∧
        ∀ t, (t ∈ ts ↔ (t ∈ healthy ∧ t ∈ b.oldInstances))) ∧
    (∀ tg t, Event.dryDereg tg t ∈ (run inp opts env).trace →
      ∃ healthy, env.health tg = Except.ok healthy ∧ t ∈ healthy ∧ t ∈ b.oldInstances) ∧
    (opts.dryRun = true → opts.deregister = true →
      b.latestInstances ≠ [] → b.oldInstances ≠ [] →
      (∀ tg, ∃ v, env.health tg = Except.ok v) →
      ∀ tg ∈ inp.targetGroups, ∀ healthy, env.health tg = Except.ok healthy →
        ∀ t, (Event.dryDereg tg t ∈ (run inp opts env).trace ↔
          (t ∈ healthy ∧ t ∈ b.oldInstances))) := by
  obtain ⟨p, htr, hp⟩ := run_trace_parts inp opts env b hok
  have hpnot : ∀ e ∈ p, Event.isProtectPhase e = true := by
    rcases hp with rfl | rfl
    · intro e he; exact absurd he (List.not_mem_nil _)
    · exact protectLoop_events_phase env b.instanceIdsToRemove opts.dryRun _ 0
  have hsound : ∀ tg t, Event.dryDereg tg t ∈ (run inp opts env).trace →
      ∃ healthy, env.health tg = Except.ok healthy ∧ t ∈ healthy ∧ t ∈ b.oldInstances := by
    intro tg t hmem
    rw [htr] at hmem
    rcases List.mem_append.mp hmem with hmem | hmem
    · by_cases hcond :
          (opts.deregister && !b.latestInstances.isEmpty && !b.oldInstances.isEmpty) = true
      · rw [if_pos hcond] at hmem
        exact deregLoop_dryDereg_spec env b.oldInstances opts.dryRun inp.targetGroups tg t hmem
      · rw [if_neg hcond] at hmem
        exact absurd hmem (List.not_mem_nil _)
    · exfalso
      have hph := hpnot _ hmem
      simp [Event.isProtectPhase] at hph
  refine ⟨?_, hsound, ?_⟩
  · intro tg ts hmem
    rw [htr] at hmem
    rcases List.mem_append.mp hmem with hmem | hmem
    · by_cases hcond :
          (opts.deregister && !b.latestInstances.isEmpty && !b.oldInstances.isEmpty) = true
      · rw [if_pos hcond] at hmem
        obtain ⟨healthy, hhh, rfl⟩ :=
          deregLoop_deregCall_spec env b.oldInstances opts.dryRun inp.targetGroups tg ts hmem
        exact ⟨healthy, hhh, fun t => matchedTargets_mem healthy b.oldInstances t⟩
      · rw [if_neg hcond] at hmem
        exact absurd hmem (List.not_mem_nil _)
    · exfalso
      have hph := hpnot _ hmem
      simp [Event.isProtectPhase] at hph
  · intro hdry hder hlat hold hh tg htg healthy hhealthy t
    have hcond : (opts.deregister && !b.latestInstances.isEmpty && !b.oldInstances.isEmpty) = true :=
      (deregCond_iff opts b).mpr ⟨hder, hlat, hold⟩
    constructor
    · intro hmem
      obtain ⟨healthy', hh', ht1, ht2⟩ := hsound tg t hmem
      rw [hhealthy] at hh'
      injection hh' with he
      subst he
      exact ⟨ht1, ht2⟩
    · intro ht
      have htm : t ∈ matchedTargets healthy b.oldInstances :=
        (matchedTargets_mem healthy b.oldInstances t).mpr ht
      have hadv := deregLoop_dryDereg_of_mem env b.oldInstances hh inp.targetGroups
        tg htg healthy hhealthy t htm
      rw [htr, if_pos hcond]
      refine List.mem_append_left _ ?_
      rw [hdry]
      exact hadv

/-- C5 witness: group "tg1" has "B" and "C" registered, staleUnprotected
is {"C"}: the live request carries exactly {"C"}, and the dry run on
the same input advises exactly "C" for "tg1". -/
theorem dereg_targets_exact_witness :
    (∃ healthy, wEnvOk.health "tg1" = Except.ok healthy ∧
      ∀ t, (t ∈ (["C"] : List String) ↔ (t ∈ healthy ∧ t ∈ (["C"] : List String)))) ∧
    Event.dryDereg "tg1" "C" ∈
      (run ⟨"web-lt", 5, [wA, wC], ["tg1"]⟩ ⟨true, false, true, false, false⟩ wEnvOk).trace :=
  ⟨(dereg_targets_exact ⟨"web-lt", 5, [wA, wC], ["tg1"]⟩ ⟨false, false, true, false, false⟩
      wEnvOk ⟨[], ["A"], ["C"], ["C"]⟩ rfl).1 "tg1" ["C"] (by decide),
   ((dereg_targets_exact ⟨"web-lt", 5, [wA, wC], ["tg1"]⟩ ⟨true, false, true, false, false⟩
      wEnvOk ⟨[], ["A"], ["C"], ["C"]⟩ rfl).2.2 rfl rfl (by simp) (by simp)
      (fun _ => ⟨["B", "C"], rfl⟩) "tg1" (by simp) ["B", "C"] rfl "C").mpr
      ⟨by simp, by simp⟩⟩

/-- With all lookups and calls succeeding, the live deregistration loop
issues one deregistration call for every target group. -/
theorem deregLoop_call_of_mem (env : Env) (old : List String)
    (hh : ∀ tg, ∃ v, env.health tg = Except.ok v)
    (hd : ∀ tg, env.deregOk tg = true) :
    ∀ tgs : List String, ∀ tg ∈ tgs,
      ∃ ts, Event.deregCall tg ts ∈ (deregLoop env old false tgs).1 := by
  intro tgs
  induction tgs with
  | nil => intro tg h; simp at h
  | cons tg0 rest ih =>
    intro tg hmem
    obtain ⟨v, hv⟩ := hh tg0
    rw [deregLoop_cons_live_ok env old tg0 rest v hv (hd tg0)]
    rcases List.mem_cons.mp hmem with rfl | hmem
    · exact ⟨matchedTargets v old, List.mem_cons_of_mem _ (List.mem_cons_self _ _)⟩
    · obtain ⟨ts, hts⟩ := ih tg hmem
      exact ⟨ts, List.mem_cons_of_mem _ (List.mem_cons_of_mem _ hts)⟩

/-- C10: the deregistration block runs before the no-op and blocked
checks and before any protection call: when its preconditions hold it
issues its calls even though `instanceIdsToRemove` is empty (a
protection no-op), the run still succeeds with no protection call, and
in every run the trace is a deregistration-phase prefix followed by a
protection-phase suffix. -/
theorem dereg_before_noop_check (inp : Input) (opts : Opts) (env : Env) (b : Buckets)
    (hok : classify inp.ltName inp.latestVersion inp.instances = Except.ok b)
    (hrem : b.instanceIdsToRemove = [])
    (hdereg : opts.deregister = true)
    (hlatest : b.latestInstances ≠ [])
    (hold : b.oldInstances ≠ [])
    (hdry : opts.dryRun = false)
    (hh : ∀ tg, ∃ v, env.health tg = Except.ok v)
    (hd : ∀ tg, env.deregOk tg = true) :
    (∀ tg ∈ inp.targetGroups, ∃ ts, Event.deregCall tg ts ∈ (run inp opts env).trace) ∧
    (∀ payload, Event.protectCall payload ∉ (run inp opts env).trace) ∧
    (run inp opts env).result = Except.ok () ∧
    (∀ (inp' : Input) (opts' : Opts) (env' : Env),
      ∃ d p, (run inp' opts' env').trace = d ++ p ∧
        (∀ e ∈ d, Event.isProtectPhase e = false) ∧
        (∀ e ∈ p, Event.isProtectPhase e = true)) := by
  have hcond : (opts.deregister && !b.latestInstances.isEmpty && !b.oldInstances.isEmpty) = true :=
    (deregCond_iff opts b).mpr ⟨hdereg, hlatest, hold⟩
  rcases hdl : deregLoop env b.oldInstances opts.dryRun inp.targetGroups with ⟨devs, derr⟩
  have hdn : derr = none := by
    have hx := deregLoop_err_none env b.oldInstances opts.dryRun hh hd inp.targetGroups
    rw [hdl] at hx
    exact hx
  subst hdn
  have hrun : run inp opts env = ⟨devs, Except.ok (), Except.ok b, []⟩ := by
    simp [run, hok, hcond, hdl, hrem]
  refine ⟨?_, ?_, ?_, ?_⟩
  · intro tg htg
    obtain ⟨ts, hts⟩ := deregLoop_call_of_mem env b.oldInstances hh hd inp.targetGroups tg htg
    rw [hdry] at hdl
    rw [hdl] at hts
    refine ⟨ts, ?_⟩
    rw [hrun]
    exact hts
  · intro payload hmem
    rw [hrun] at hmem
    have hph := deregLoop_events_phase env b.oldInstances opts.dryRun inp.targetGroups
      (Event.protectCall payload) (by rw [hdl]; exact hmem)
    have hpc := hph.2.1
    simp [Event.isProtectCall] at hpc
  · rw [hrun]
  · intro inp' opts' env'
    cases hok' : classify inp'.ltName inp'.latestVersion inp'.instances with
    | error e =>
      refine ⟨[], [], ?_, ?_, ?_⟩
      · simp [run, hok']
      · intro e' he'; exact absurd he' (List.not_mem_nil _)
      · intro e' he'; exact absurd he' (List.not_mem_nil _)
    | ok b' =>
      obtain ⟨p, htr, hp⟩ := run_trace_parts inp' opts' env' b' hok'
      refine ⟨_, p, htr, ?_, ?_⟩
      · intro e' he'
        by_cases hc :
            (opts'.deregister && !b'.latestInstances.isEmpty && !b'.oldInstances.isEmpty) = true
        · rw [if_pos hc] at he'
          exact (deregLoop_events_phase env' b'.oldInstances opts'.dryRun
            inp'.targetGroups e' he').1
        · rw [if_neg hc] at he'
          exact absurd he' (List.not_mem_nil _)
      · rcases hp with rfl | rfl
        · intro e' he'; exact absurd he' (List.not_mem_nil _)
        · exact protectLoop_events_phase env' b'.instanceIdsToRemove opts'.dryRun _ 0

/-- C10 witness: protection plan is a no-op (nothing to unprotect) yet
the deregistration call for "tg1" is still issued and the run succeeds. -/
theorem dereg_before_noop_check_witness :
    (∃ ts, Event.deregCall "tg1" ts ∈
      (run ⟨"web-lt", 5, [wA, wC], ["tg1"]⟩ ⟨false, false, true, false, false⟩ wEnvOk).trace) ∧
    (run ⟨"web-lt", 5, [wA, wC], ["tg1"]⟩ ⟨false, false, true, false, false⟩ wEnvOk).result =
      Except.ok () := by
  have h := dereg_before_noop_check ⟨"web-lt", 5, [wA, wC], ["tg1"]⟩
    ⟨false, false, true, false, false⟩ wEnvOk ⟨[], ["A"], ["C"], ["C"]⟩ rfl rfl rfl
    (by simp) (by simp) rfl (fun _ => ⟨["B", "C"], rfl⟩) (fun _ => rfl)
  exact ⟨h.1 "tg1" (by simp), h.2.2.1⟩

/-- C9: in live mode, when the protection-removal call at index `k`
fails after `k` successful calls, the run aborts immediately with an
error having submitted exactly `k + 1` calls: no further batch is
submitted, no retry occurs, and the `k` already-submitted calls remain
in the trace with no compensating event of any kind. -/
theorem protect_failure_aborts (inp : Input) (opts : Opts) (env : Env) (b : Buckets) (k : Nat)
    (hok : classify inp.ltName inp.latestVersion inp.instances = Except.ok b)
    (hrem : b.instanceIdsToRemove ≠ [])
    (hproceed : b.latestInstances ≠ [] ∨ opts.force = true)
    (hdry : opts.dryRun = false)
    (hh : ∀ tg, ∃ v, env.health tg = Except.ok v)
    (hd : ∀ tg, env.deregOk tg = true)
    (hk : k < (chunks50 b.instanceIdsToRemove).length)
    (hsucc : ∀ j, j < k → env.protectOk j = true)
    (hfail : env.protectOk k = false) :
    (∃ e, (run inp opts env).result = Except.error e) ∧
    (run inp opts env).trace.filter Event.isProtectCall =
      List.replicate (k + 1) (Event.protectCall b.instanceIdsToRemove) := by
  have hpl := protectLoop_fail env b.instanceIdsToRemove (chunks50 b.instanceIdsToRemove) 0 k hk
    (by intro j hj; simpa using hsucc j hj) (by simpa using hfail)
  have hblock : (b.latestInstances.isEmpty && !opts.force) = false := by
    rcases hproceed with hl | hf
    · simp [List.isEmpty_eq_false.mpr hl]
    · simp [hf]
  rcases hdl : deregLoop env b.oldInstances opts.dryRun inp.targetGroups with ⟨devs, derr⟩
  rw [hdry] at hdl
  have hdn : derr = none := by
    have hx := deregLoop_err_none env b.oldInstances false hh hd inp.targetGroups
    rw [hdl] at hx
    exact hx
  subst hdn
  have hfilter : ∀ devs0 : List Event,
      (∀ e ∈ devs0, Event.isProtectCall e = false) →
      (devs0 ++ List.replicate (k + 1) (Event.protectCall b.instanceIdsToRemove)).filter
          Event.isProtectCall =
        List.replicate (k + 1) (Event.protectCall b.instanceIdsToRemove) := by
    intro devs0 hdevs0
    rw [List.filter_append, List.filter_eq_nil_iff.mpr (by intro e he; simp [hdevs0 e he]),
      List.nil_append, List.filter_eq_self.mpr]
    intro e he
    rw [List.eq_of_mem_replicate he]
    rfl
  by_cases hcond :
      (opts.deregister && !b.latestInstances.isEmpty && !b.oldInstances.isEmpty) = true
  · have hrun : run inp opts env =
        ⟨devs ++ List.replicate (k + 1) (Event.protectCall b.instanceIdsToRemove),
         Except.error "set instance protection failed", Except.ok b,
         chunks50 b.instanceIdsToRemove⟩ := by
      simp [run, hok, hcond, hdl, hrem, hblock, hdry, hpl]
    rw [hrun]
    refine ⟨⟨_, rfl⟩, ?_⟩
    exact hfilter devs (fun e he =>
      (deregLoop_events_phase env b.oldInstances false inp.targetGroups e
        (by rw [hdl]; exact he)).2.1)
  · have hrun : run inp opts env =
        ⟨[] ++ List.replicate (k + 1) (Event.protectCall b.instanceIdsToRemove),
         Except.error "set instance protection failed", Except.ok b,
         chunks50 b.instanceIdsToRemove⟩ := by
      simp [run, hok, hcond, hrem, hblock, hdry, hpl]
    rw [hrun]
    refine ⟨⟨_, rfl⟩, ?_⟩
    exact hfilter [] (fun e he => absurd he (List.not_mem_nil _))

/-- C9 witness: a single batch whose call fails: exactly one call is in
the trace and the run ends in an error. -/
theorem protect_failure_aborts_witness :
    (∃ e, (run ⟨"web-lt", 5, [wA, wB], []⟩ ⟨false, false, false, false, false⟩
      wEnvPFail).result = Except.error e) ∧
    (run ⟨"web-lt", 5, [wA, wB], []⟩ ⟨false, false, false, false, false⟩
      wEnvPFail).trace.filter Event.isProtectCall =
      List.replicate (0 + 1) (Event.protectCall ["B"]) :=
  protect_failure_aborts ⟨"web-lt", 5, [wA, wB], []⟩ ⟨false, false, false, false, false⟩
    wEnvPFail ⟨["B"], ["A"], ["B"], []⟩ 0 rfl (by simp) (Or.inl (by simp)) rfl
    (fun _ => ⟨["B", "C"], rfl⟩) (fun _ => rfl) (by decide) (fun j hj => absurd hj (by omega))
    rfl

/-- When every instance carries the ASG's template name with a version
parsing to the latest version, the classifier marks everything latest. -/
theorem classify_all_latest (ltName : String) (lv : Int) (l : List Inst)
    (hall : ∀ inst ∈ l, ∃ ref, inst.lt = some ref ∧ ref.name = ltName ∧
      parseInt64 ref.version = some lv) :
    classify ltName lv l = Except.ok ⟨[], l.map (fun i => i.id), [], []⟩ := by
  induction l with
  | nil => rfl
  | cons inst rest ih =>
    obtain ⟨ref, hlt, hn, hv⟩ := hall inst (List.mem_cons_self _ _)
    have hrest := ih (fun i hi => hall i (List.mem_cons_of_mem _ hi))
    have hci : classifyInst ltName lv inst = Except.ok Classification.Latest := by
      simp [classifyInst, hlt, hn, hv]
    simp [classify, hci, hrest]

/-- C8 counterexample: instance "D" has a template name different from
the ASG's, and its version string "5" equals the latest version 5, so
the claim's hypothesis "every instance's version equals LatestVersion"
holds; yet `toUnprotect` = ["D"] is not empty, and (with one latest
instance "A" present so the plan proceeds) the live run issues a
mutating protection-removal call. -/
theorem all_latest_noop_cex :
    parseInt64 "5" = some 5 ∧
    classify "web-lt" 5 [⟨"D", some ⟨"other-lt", "5"⟩, true⟩] =
      Except.ok ⟨["D"], [], [], []⟩ ∧
    (run ⟨"web-lt", 5, [wA, ⟨"D", some ⟨"other-lt", "5"⟩, true⟩], []⟩
      ⟨false, false, false, false, false⟩ wEnvOk).trace = [Event.protectCall ["D"]] :=
  ⟨by decide, rfl, rfl⟩

/-- C8 (amended): when every instance carries the ASG's active template
name and a version equal to the latest version, `toUnprotect` and
`staleUnprotected` are both empty and the run is a no-op: no remote
interaction at all, terminating successfully. -/
theorem all_latest_noop (inp : Input) (opts : Opts) (env : Env)
    (hall : ∀ inst ∈ inp.instances, ∃ ref, inst.lt = some ref ∧
      ref.name = inp.ltName ∧ parseInt64 ref.version = some inp.latestVersion) :
    ∃ b, classify inp.ltName inp.latestVersion inp.instances = Except.ok b ∧
      b.instanceIdsToRemove = [] ∧ b.oldInstances = [] ∧
      (run inp opts env).trace.filter Event.isMutating = [] ∧
      (run inp opts env).result = Except.ok () := by
  have hb := classify_all_latest inp.ltName inp.latestVersion inp.instances hall
  have hrun : run inp opts env =
      ⟨[], Except.ok (), Except.ok ⟨[], inp.instances.map (fun i => i.id), [], []⟩, []⟩ := by
    simp [run, hb]
  exact ⟨_, hb, rfl, rfl, by rw [hrun]; rfl, by rw [hrun]⟩

/-- C8 witness: two instances at the latest version: empty buckets, no
calls, success. -/
theorem all_latest_noop_witness :
    ∃ b, classify "web-lt" 5 [wA, ⟨"C", some ⟨"web-lt", "5"⟩, false⟩] = Except.ok b ∧
      b.instanceIdsToRemove = [] ∧ b.oldInstances = [] ∧
      (run ⟨"web-lt", 5, [wA, ⟨"C", some ⟨"web-lt", "5"⟩, false⟩], ["tg1"]⟩
        ⟨false, false, true, false, false⟩ wEnvOk).trace.filter Event.isMutating = [] ∧
      (run ⟨"web-lt", 5, [wA, ⟨"C", some ⟨"web-lt", "5"⟩, false⟩], ["tg1"]⟩
        ⟨false, false, true, false, false⟩ wEnvOk).result = Except.ok () := by
  refine all_latest_noop ⟨"web-lt", 5, [wA, ⟨"C", some ⟨"web-lt", "5"⟩, false⟩], ["tg1"]⟩
    ⟨false, false, true, false, false⟩ wEnvOk ?_
  intro inst hmem
  rcases List.mem_cons.mp hmem with rfl | hmem
  · exact ⟨⟨"web-lt", "5"⟩, rfl, rfl, by decide⟩
  rcases List.mem_cons.mp hmem with rfl | hmem
  · exact ⟨⟨"web-lt", "5"⟩, rfl, rfl, by decide⟩
  · exact absurd hmem (List.not_mem_nil _)

/-- A list of events none of which is a dry-run protection advisory
contributes nothing to the advisory-chunk projection. -/
theorem filterMap_dryChunk_nil (l : List Event) (h : ∀ e ∈ l, Event.dryChunk e = none) :
    l.filterMap Event.dryChunk = [] := by
  induction l with
  | nil => rfl
  | cons e rest ih =>
    rw [List.filterMap_cons, h e (List.mem_cons_self _ _)]
    exact ih (fun e' he' => h e' (List.mem_cons_of_mem _ he'))

/-- The advisory-chunk projection recovers the chunk list from the
dry-run protection advisories. -/
theorem filterMap_dryChunk_map_dryProtect (cs : List (List String)) :
    (cs.map Event.dryProtect).filterMap Event.dryChunk = cs := by
  induction cs with
  | nil => rfl
  | cons c rest ih => simp [Event.dryChunk, ih]

/-- C7: a dry run performs no mutating remote call whatever the
environment does, and (when the remote world is healthy) it computes
exactly the same classification buckets and the same partition-chunk
structure as the live run on the same input, its advisory chunks being
precisely that chunk structure. -/
theorem dry_run_safe (inp : Input) (opts : Opts) :
    (∀ env : Env,
      (run inp (Opts.withDry opts true) env).trace.filter Event.isMutating = []) ∧
    (∀ env : Env, (∀ tg, ∃ v, env.health tg = Except.ok v) →
      (∀ tg, env.deregOk tg = true) → (∀ j, env.protectOk j = true) →
      ((run inp (Opts.withDry opts true) env).buckets =
        (run inp (Opts.withDry opts false) env).buckets ∧
       (run inp (Opts.withDry opts true) env).chunks =
        (run inp (Opts.withDry opts false) env).chunks ∧
       (run inp (Opts.withDry opts true) env).trace.filterMap Event.dryChunk =
        (run inp (Opts.withDry opts true) env).chunks)) := by
  constructor
  · intro env
    cases hok : classify inp.ltName inp.latestVersion inp.instances with
    | error e =>
      have htr : (run inp (Opts.withDry opts true) env).trace = [] := by simp [run, hok]
      rw [htr]
      rfl
    | ok b =>
      obtain ⟨p, htr, hp⟩ := run_trace_parts inp (Opts.withDry opts true) env b hok
      simp only [Opts.withDry] at htr hp
      simp only [Opts.withDry]
      rw [htr]
      apply List.filter_eq_nil_iff.mpr
      intro e he
      rcases List.mem_append.mp he with he | he
      · by_cases hc :
            (opts.deregister && !b.latestInstances.isEmpty && !b.oldInstances.isEmpty) = true
        · rw [if_pos hc] at he
          have hm := deregLoop_dry_not_mutating env b.oldInstances inp.targetGroups e he
          simp [hm]
        · rw [if_neg hc] at he
          exact absurd he (List.not_mem_nil _)
      · rcases hp with rfl | rfl
        · exact absurd he (List.not_mem_nil _)
        · rw [protectLoop_dry] at he
          obtain ⟨c, _, rfl⟩ := List.mem_map.mp he
          simp [Event.isMutating]
  · intro env hh hd hp
    cases hok : classify inp.ltName inp.latestVersion inp.instances with
    | error e =>
      have h1 : run inp (Opts.withDry opts true) env =
          ⟨[], Except.error e, Except.error e, []⟩ := by simp [run, hok]
      have h2 : run inp (Opts.withDry opts false) env =
          ⟨[], Except.error e, Except.error e, []⟩ := by simp [run, hok]
      rw [h1, h2]
      exact ⟨rfl, rfl, rfl⟩
    | ok b =>
      rcases hdlD : deregLoop env b.oldInstances true inp.targetGroups with ⟨devsD, derrD⟩
      have hdnD : derrD = none := by
        have hx := deregLoop_err_none env b.oldInstances true hh hd inp.targetGroups
        rw [hdlD] at hx
        exact hx
      subst hdnD
      rcases hdlL : deregLoop env b.oldInstances false inp.targetGroups with ⟨devsL, derrL⟩
      have hdnL : derrL = none := by
        have hx := deregLoop_err_none env b.oldInstances false hh hd inp.targetGroups
        rw [hdlL] at hx
        exact hx
      subst hdnL
      have hplD := protectLoop_dry env b.instanceIdsToRemove (chunks50 b.instanceIdsToRemove) 0
      have hplL := protectLoop_all_ok env b.instanceIdsToRemove hp (chunks50 b.instanceIdsToRemove) 0
      have hdevsD : ∀ e ∈ devsD, Event.dryChunk e = none := fun e he =>
        (deregLoop_events_phase env b.oldInstances true inp.targetGroups e
          (by rw [hdlD]; exact he)).2.2
      by_cases hcond :
          (opts.deregister && !b.latestInstances.isEmpty && !b.oldInstances.isEmpty) = true
      · by_cases hrem : b.instanceIdsToRemove.isEmpty = true
        · have h1 : run inp (Opts.withDry opts true) env =
              ⟨devsD, Except.ok (), Except.ok b, []⟩ := by
            simp [run, hok, Opts.withDry, hcond, hdlD, hrem]
          have h2 : run inp (Opts.withDry opts false) env =
              ⟨devsL, Except.ok (), Except.ok b, []⟩ := by
            simp [run, hok, Opts.withDry, hcond, hdlL, hrem]
          rw [h1, h2]
          exact ⟨rfl, rfl, filterMap_dryChunk_nil devsD hdevsD⟩
        · by_cases hblock : (b.latestInstances.isEmpty && !opts.force) = true
          · have h1 : run inp (Opts.withDry opts true) env =
                ⟨devsD, Except.ok (), Except.ok b, []⟩ := by
              simp [run, hok, Opts.withDry, hcond, hdlD, hrem, hblock]
            have h2 : run inp (Opts.withDry opts false) env =
                ⟨devsL, Except.ok (), Except.ok b, []⟩ := by
              simp [run, hok, Opts.withDry, hcond, hdlL, hrem, hblock]
            rw [h1, h2]
            exact ⟨rfl, rfl, filterMap_dryChunk_nil devsD hdevsD⟩
          · have h1 : run inp (Opts.withDry opts true) env =
                ⟨devsD ++ (chunks50 b.instanceIdsToRemove).map Event.dryProtect,
                 Except.ok (), Except.ok b, chunks50 b.instanceIdsToRemove⟩ := by
              simp [run, hok, Opts.withDry, hcond, hdlD, hrem, hblock, hplD]
            have h2 : run inp (Opts.withDry opts false) env =
                ⟨devsL ++ (chunks50 b.instanceIdsToRemove).map
                   (fun _ => Event.protectCall b.instanceIdsToRemove),
                 Except.ok (), Except.ok b, chunks50 b.instanceIdsToRemove⟩ := by
              simp [run, hok, Opts.withDry, hcond, hdlL, hrem, hblock, hplL]
            rw [h1, h2]
            refine ⟨rfl, rfl, ?_⟩
            rw [List.filterMap_append, filterMap_dryChunk_nil devsD hdevsD,
              filterMap_dryChunk_map_dryProtect, List.nil_append]
      · by_cases hrem : b.instanceIdsToRemove.isEmpty = true
        · have h1 : run inp (Opts.withDry opts true) env =
              ⟨[], Except.ok (), Except.ok b, []⟩ := by
            simp [run, hok, Opts.withDry, hcond, hrem]
          have h2 : run inp (Opts.withDry opts false) env =
              ⟨[], Except.ok (), Except.ok b, []⟩ := by
            simp [run, hok, Opts.withDry, hcond, hrem]
          rw [h1, h2]
          exact ⟨rfl, rfl, rfl⟩
        · by_cases hblock : (b.latestInstances.isEmpty && !opts.force) = true
          · have h1 : run inp (Opts.withDry opts true) env =
                ⟨[], Except.ok (), Except.ok b, []⟩ := by
              simp [run, hok, Opts.withDry, hcond, hrem, hblock]
            have h2 : run inp (Opts.withDry opts false) env =
                ⟨[], Except.ok (), Except.ok b, []⟩ := by
              simp [run, hok, Opts.withDry, hcond, hrem, hblock]
            rw [h1, h2]
            exact ⟨rfl, rfl, rfl⟩
          · have h1 : run inp (Opts.withDry opts true) env =
                ⟨[] ++ (chunks50 b.instanceIdsToRemove).map Event.dryProtect,
                 Except.ok (), Except.ok b, chunks50 b.instanceIdsToRemove⟩ := by
              simp [run, hok, Opts.withDry, hcond, hrem, hblock, hplD]
            have h2 : run inp (Opts.withDry opts false) env =
                ⟨[] ++ (chunks50 b.instanceIdsToRemove).map
                   (fun _ => Event.protectCall b.instanceIdsToRemove),
                 Except.ok (), Except.ok b, chunks50 b.instanceIdsToRemove⟩ := by
              simp [run, hok, Opts.withDry, hcond, hrem, hblock, hplL]
            rw [h1, h2]
            refine ⟨rfl, rfl, ?_⟩
            rw [List.nil_append, filterMap_dryChunk_map_dryProtect]

/-- C7 witness: on the spec's scenario input the dry run makes no
mutating call and agrees with the live run on buckets and chunks. -/
theorem dry_run_safe_witness :
    (run ⟨"web-lt", 5, [wA, wB, wC], ["tg1"]⟩
      (Opts.withDry ⟨false, false, true, false, false⟩ true) wEnvOk).trace.filter
        Event.isMutating = [] ∧
    (run ⟨"web-lt", 5, [wA, wB, wC], ["tg1"]⟩
      (Opts.withDry ⟨false, false, true, false, false⟩ true) wEnvOk).buckets =
      (run ⟨"web-lt", 5, [wA, wB, wC], ["tg1"]⟩
        (Opts.withDry ⟨false, false, true, false, false⟩ false) wEnvOk).buckets ∧
    (run ⟨"web-lt", 5, [wA, wB, wC], ["tg1"]⟩
      (Opts.withDry ⟨false, false, true, false, false⟩ true) wEnvOk).chunks =
      (run ⟨"web-lt", 5, [wA, wB, wC], ["tg1"]⟩
        (Opts.withDry ⟨false, false, true, false, false⟩ false) wEnvOk).chunks := by
  have h := dry_run_safe ⟨"web-lt", 5, [wA, wB, wC], ["tg1"]⟩ ⟨false, false, true, false, false⟩
  have h2 := h.2 wEnvOk (fun _ => ⟨["B", "C"], rfl⟩) (fun _ => rfl) (fun _ => rfl)
  exact ⟨h.1 wEnvOk, h2.1, h2.2.1⟩

/-- C1 at the failing input (the chunking bug): with 51 ids to
unprotect, the partition loop runs twice (chunk lengths 50 and 1,
matching the intended `ceil(N/50)` structure), but each of the two live
`SetInstanceProtection` calls carries the entire 51-id list
(`InstanceIds: instanceIdsToRemove` instead of the chunk slice): a
payload exceeding 50 ids, and the list is covered twice rather than
exactly once. -/
theorem batch_payload_bug :
    ids51.length = 51 ∧
    ¬(ids51.length ≤ 50) ∧
    (chunks50 ids51).map List.length = [50, 1] ∧
    (run inp51 ⟨false, false, false, false, false⟩ wEnvOk).trace =
      [Event.protectCall ids51, Event.protectCall ids51] ∧
    (run inp51 ⟨false, false, false, false, false⟩ wEnvOk).result = Except.ok () := by
  refine ⟨by decide, by decide, by decide, ?_, rfl⟩
  rfl

end RIP
